import Mathlib

/-!
Shallow embedding of `apps/mtg-browser/fetch_scryfall_to_ndjson.py`.

The script has two components: a metadata resolver (`get_bulk_meta`) that
locates a dataset entry in a bulk-data index payload, and a streaming
transcoder (`stream_bulk_json_array_to_ndjson`) that rewrites a streamed
JSON array as NDJSON lines written to one or more sinks.

The embedding abstracts the two HTTP calls: the index response is a parsed
`PyVal`, and the streamed download body is a list of `StreamEvent`s (the
values yielded by `ijson.items(resp.raw, "item")`, or a parse error raised
by the incremental parser).  Everything downstream of the network boundary
is translated directly from the source.
-/

/-- Python values as produced by JSON parsing (`r.json()` / `ijson.items`).
`ijson` yields `int` for integer literals and `decimal.Decimal` for
fractional ones; a `Decimal` with value `mantissa * 10 ^ (-scale)` is
modelled by `dec mantissa scale`.  `foreign` stands for any other Python
object that is not natively JSON-serializable (the argument on which
`json.dumps` would call the `default` hook and then raise `TypeError`). -/
inductive PyVal where
  | none
  | bool (b : Bool)
  | int (n : Int)
  | dec (mantissa : Int) (scale : Nat)
  | str (s : String)
  | list (elts : List PyVal)
  | dict (kvs : List (String × PyVal))
  | foreign (typeName : String)

/-- Python truthiness (`bool(v)`) for parsed JSON values. -/
def pyTruthy : PyVal → Bool
  | PyVal.none => false
  | PyVal.bool b => b
  | PyVal.int n => n != 0
  | PyVal.dec m _ => m != 0
  | PyVal.str s => !s.isEmpty
  | PyVal.list xs => !xs.isEmpty
  | PyVal.dict kvs => !kvs.isEmpty
  | PyVal.foreign _ => true

/-- Python `v == s` where `s` is a `str`: true exactly when `v` is a string
with the same characters. -/
def pyEqStr (v : PyVal) (s : String) : Bool :=
  match v with
  | PyVal.str t => t == s
  | _ => false

/-- Python `k in d` on a dict (modelled as an ordered association list). -/
def hasKey (kvs : List (String × PyVal)) (k : String) : Bool :=
  kvs.any (fun kv => kv.1 == k)

/-- Python `d.get(k)` on a dict: the stored value, or `None` when absent. -/
def pyDictGet (kvs : List (String × PyVal)) (k : String) : PyVal :=
  match kvs.find? (fun kv => kv.1 == k) with
  | some kv => kv.2
  | Option.none => PyVal.none

/-- Python `str.lower()` (ASCII-faithful: Lean's `Char.toLower` lowers
exactly the ASCII uppercase letters, which agrees with Python on ASCII
paths such as `.GZ`). -/
def pyLower (s : String) : String :=
  String.mk (s.data.map Char.toLower)

/-- Python `s.endswith(sfx)`. -/
def pyEndsWith (s sfx : String) : Bool :=
  sfx.data.isSuffixOf s.data

/-- One hexadecimal digit (lowercase), as used by `json`'s `\uXXXX` escapes. -/
def hexDigit (n : Nat) : Char :=
  if n < 10 then Char.ofNat (48 + n) else Char.ofNat (87 + n)

/-- Four lowercase hexadecimal digits. -/
def hex4 (n : Nat) : String :=
  String.mk [hexDigit (n / 4096 % 16), hexDigit (n / 256 % 16),
             hexDigit (n / 16 % 16), hexDigit (n % 16)]

/-- The escaping `json.dumps` applies inside string literals when
`ensure_ascii=False`: only `"` , `\` and control characters below U+0020
are escaped; every other character (non-ASCII included) is kept as is. -/
def escapeChar (c : Char) : String :=
  if c = '"' then "\\\""
  else if c = '\\' then "\\\\"
  else if c = '\n' then "\\n"
  else if c = '\r' then "\\r"
  else if c = '\t' then "\\t"
  else if c.toNat = 8 then "\\b"
  else if c.toNat = 12 then "\\f"
  else if c.toNat < 32 then "\\u" ++ hex4 c.toNat
  else String.singleton c

/-- A JSON string literal for `s` (quotes plus escaped body). -/
def jsonQuote (s : String) : String :=
  "\"" ++ String.join (s.data.map escapeChar) ++ "\""

/-- Drop trailing decimal zeros of `mantissa * 10 ^ (-scale)`. -/
def stripZeros : Int → Nat → Int × Nat
  | m, 0 => (m, 0)
  | m, s + 1 => if m % 10 == 0 then stripZeros (m / 10) s else (m, s + 1)

/-- The decimal text `repr(float(Decimal(...)))` produces for a decimal
value `mantissa * 10 ^ (-scale)`: trailing zeros dropped, and an
integer-valued float rendered with a trailing `.0` (e.g. `12.50 ↦ 12.5`,
`12 ↦ 12.0`, `0.05 ↦ 0.05`).  The model is exact on decimals whose
shortest float repr round-trips to the same decimal digits, which covers
the moderate-magnitude values exercised here. -/
def renderDecimal (m : Int) (s : Nat) : String :=
  let p := stripZeros m s
  let sign := if p.1 < 0 then "-" else ""
  let ds := Nat.repr p.1.natAbs
  if p.2 = 0 then sign ++ ds ++ ".0"
  else
    let padded := if ds.length ≤ p.2 then
        String.mk (List.replicate (p.2 + 1 - ds.length) '0') ++ ds
      else ds
    sign ++ padded.take (padded.length - p.2) ++ "." ++ padded.drop (padded.length - p.2)

/-- The `_json_default` hook from the source: a `Decimal` is converted to a float
(whose `json` rendering is modelled by `renderDecimal`); any other object
raises `TypeError` (`Option.none`). -/
def _json_default : PyVal → Option String
  | PyVal.dec m s => some (renderDecimal m s)
  | _ => Option.none

mutual

/-- Model of `json.dumps(obj, ensure_ascii=False, default=_json_default)` with the
default separators `', '` and `': '`: a compact one-line rendering.
`Option.none` is the `TypeError` raised when a value is not serializable
even via the `_json_default` fallback. -/
def dumps : PyVal → Option String
  | PyVal.none => some "null"
  | PyVal.bool b => some (if b then "true" else "false")
  | PyVal.int n => some (toString n)
  | PyVal.dec m s => _json_default (PyVal.dec m s)
  | PyVal.str s => some (jsonQuote s)
  | PyVal.list elts =>
      match dumpsElems elts with
      | some parts => some ("[" ++ String.intercalate ", " parts ++ "]")
      | Option.none => Option.none
  | PyVal.dict kvs =>
      match dumpsKvs kvs with
      | some parts => some ("\x7b" ++ String.intercalate ", " parts ++ "\x7d")
      | Option.none => Option.none
  | PyVal.foreign t => _json_default (PyVal.foreign t)

/-- Serialize the elements of a JSON array, failing if any element fails. -/
def dumpsElems : List PyVal → Option (List String)
  | [] => some []
  | v :: rest =>
      match dumps v, dumpsElems rest with
      | some s, some ss => some (s :: ss)
      | _, _ => Option.none

/-- Serialize the `"key": value` members of a JSON object, failing if any
value fails. -/
def dumpsKvs : List (String × PyVal) → Option (List String)
  | [] => some []
  | kv :: rest =>
      match dumps kv.2, dumpsKvs rest with
      | some s, some ss => some ((jsonQuote kv.1 ++ ": " ++ s) :: ss)
      | _, _ => Option.none

end

/-- One event produced by the incremental parse
`ijson.items(resp.raw, "item")`: either the next top-level array element,
or a parse error raised by `ijson` (which ends the iteration). -/
inductive StreamEvent where
  | item (v : PyVal)
  | parseError

/-- The error taxonomy of the transcoder, mirroring the exceptions of the
source: `configError` is the `ValueError` raised on an empty `out_paths`,
`httpError` the `raise_for_status` failure, `parseError` an `ijson`
parsing exception, and `serializationError` the `TypeError` raised by
`json.dumps` via `_json_default`. -/
inductive TranscodeErr where
  | configError
  | httpError
  | parseError
  | serializationError
  deriving DecidableEq

/-- Whether a sink is gzip-compressed text or plain text. -/
inductive WriterKind where
  | gzipText
  | plainText
  deriving DecidableEq

/-- The state of one output sink: its path, its compression kind, the
lines written to it so far, and whether it has been closed. -/
structure SinkWriter where
  path : String
  kind : WriterKind
  lines : List String
  closed : Bool
  deriving DecidableEq

/-- The sink opener `_open_writer` from the source: `gzip.open(path, "wt")` when
`path.lower().endswith(".gz")`, else `open(path, "w")`.  Both modes
truncate, so a freshly opened writer holds no lines regardless of what
the file contained before. -/
def _open_writer (path : String) : SinkWriter :=
  { path := path
    kind := if pyEndsWith (pyLower path) ".gz" then WriterKind.gzipText else WriterKind.plainText
    lines := []
    closed := false }

/-- The break test `if limit and count >= limit` of the source: `limit`
must be truthy (not `None` and nonzero) and `count >= limit`. -/
def shouldBreak (limit : Option Int) (count : Int) : Bool :=
  match limit with
  | Option.none => false
  | some k => k != 0 && decide (k ≤ count)

/-- The `for obj in ijson.items(resp.raw, "item"):` loop body of
`stream_bulk_json_array_to_ndjson`: serialize the object, append the line
to every writer, increment `count`, and stop early when the limit test
fires.  Returns the loop's outcome (the returned `count`, or the raised
exception), the final writer states, and the number of stream events
consumed (so that early termination leaves the rest of the stream
unread). -/
def runLoop (limit : Option Int) :
    List StreamEvent → List SinkWriter → Int → Nat →
    Except TranscodeErr Int × List SinkWriter × Nat
  | [], ws, count, consumed => (Except.ok count, ws, consumed)
  | StreamEvent.parseError :: _, ws, _, consumed =>
      (Except.error TranscodeErr.parseError, ws, consumed + 1)
  | StreamEvent.item v :: rest, ws, count, consumed =>
      match dumps v with
      | Option.none => (Except.error TranscodeErr.serializationError, ws, consumed + 1)
      | some s =>
          let ws' := ws.map (fun w => { w with lines := w.lines ++ [s ++ "\n"] })
          if shouldBreak limit (count + 1) then (Except.ok (count + 1), ws', consumed + 1)
          else runLoop limit rest ws' (count + 1) (consumed + 1)

/-- Everything observable about one call of the transcoder: the returned
count or raised error, the final state of every writer that was opened,
whether the streaming HTTP request was issued, and how many stream events
were consumed. -/
structure TranscodeOutcome where
  result : Except TranscodeErr Int
  writers : List SinkWriter
  httpRequested : Bool
  consumed : Nat

/-- The transcoder `stream_bulk_json_array_to_ndjson` from the source.  The streamed HTTP
response is abstracted as `httpOk` (did `raise_for_status` pass) plus
`events` (what `ijson` yields from the body).  The empty-`out_paths`
check precedes the request; the writers are opened after the response
arrives; the `finally` block closes every writer on all exit paths of the
loop; the loop's `count` (or its exception) is the result. -/
def stream_bulk_json_array_to_ndjson (httpOk : Bool) (events : List StreamEvent)
    (out_paths : List String) (limit : Option Int) : TranscodeOutcome :=
  if out_paths.isEmpty then
    { result := Except.error TranscodeErr.configError
      writers := []
      httpRequested := false
      consumed := 0 }
  else if !httpOk then
    { result := Except.error TranscodeErr.httpError
      writers := []
      httpRequested := true
      consumed := 0 }
  else
    let r := runLoop limit events (out_paths.map _open_writer) 0 0
    { result := r.1
      writers := r.2.1.map (fun w => { w with closed := true })
      httpRequested := true
      consumed := r.2.2 }

/-- The line the transcoder writes for one array element: its compact
JSON serialization followed by a newline. -/
def lineOf (v : PyVal) : String :=
  (dumps v).getD "" ++ "\n"

/-- A run of the transcoder against a filesystem (a map from path to file
content).  Each opened writer truncates its file (mode `"w"` / `"wt"`),
so the final content of a sink path is exactly the lines its writer
wrote, and every other path keeps its previous content. -/
def runTranscodeFS (fs : String → String) (httpOk : Bool) (events : List StreamEvent)
    (out_paths : List String) (limit : Option Int) : (String → String) × TranscodeOutcome :=
  let o := stream_bulk_json_array_to_ndjson httpOk events out_paths limit
  (fun p =>
    match o.writers.find? (fun w => w.path == p) with
    | some w => String.join w.lines
    | Option.none => fs p, o)

/-- The error taxonomy of the metadata resolver.  The source raises
`RuntimeError` with three distinct messages; the spec names them
`ShapeError` (payload shape / missing download_uri) and `NotFoundError`
(no entry of the requested type).  `attrError` is the `AttributeError`
Python raises when `payload.get` is called on a non-dict value, and
`typeError` the `TypeError` raised when `payload["data"]` is not
iterable. -/
inductive MetaError where
  | httpError
  | shapeError (msg : String)
  | notFoundError (msg : String)
  | attrError
  | typeError
  deriving DecidableEq

/-- Python iteration (`for entry in x`): a list yields its elements, a
string its characters, a dict its keys; other JSON-parsed values are not
iterable. -/
def iterElems : PyVal → Option (List PyVal)
  | PyVal.list xs => some xs
  | PyVal.str s => some (s.data.map (fun c => PyVal.str (String.singleton c)))
  | PyVal.dict kvs => some (kvs.map (fun kv => PyVal.str kv.1))
  | _ => Option.none

/-- The filter of the resolver's scan: `isinstance(entry, dict) and
entry.get("type") == dataset_type`. -/
def entryMatches (dataset_type : String) : PyVal → Bool
  | PyVal.dict kvs => pyEqStr (pyDictGet kvs "type") dataset_type
  | _ => false

/-- The `download_uri` value (`entry.get("download_uri")`) of a matched entry. -/
def entryUri : PyVal → PyVal
  | PyVal.dict kvs => pyDictGet kvs "download_uri"
  | _ => PyVal.none

/-- The `for entry in payload["data"]:` scan of `get_bulk_meta`: the first
dict entry whose `type` equals `dataset_type` is returned, unless its
`download_uri` is falsy (missing/empty), which raises; if no entry
matches, the final `RuntimeError` is raised. -/
def scanEntries (dataset_type : String) : List PyVal → Except MetaError PyVal
  | [] => Except.error (MetaError.notFoundError
      ("No '" ++ dataset_type ++ "' entry found in bulk-data index"))
  | entry :: rest =>
      match entry with
      | PyVal.dict kvs =>
          if pyEqStr (pyDictGet kvs "type") dataset_type then
            if !pyTruthy (pyDictGet kvs "download_uri") then
              Except.error (MetaError.shapeError
                (dataset_type ++ " entry missing download_uri"))
            else Except.ok (PyVal.dict kvs)
          else scanEntries dataset_type rest
      | _ => scanEntries dataset_type rest

/-- The resolver `get_bulk_meta` from the source, downstream of the HTTP boundary:
`httpOk` abstracts `raise_for_status`, and `payload` is the parsed
`r.json()` value.  The shape check, the scan, and the error messages are
translated directly from the source. -/
def get_bulk_meta (httpOk : Bool) (payload : PyVal) (dataset_type : String) :
    Except MetaError PyVal :=
  if !httpOk then Except.error MetaError.httpError
  else
    match payload with
    | PyVal.dict kvs =>
        if !pyEqStr (pyDictGet kvs "object") "list" || !hasKey kvs "data" then
          Except.error (MetaError.shapeError "Unexpected bulk-data payload shape")
        else
          match iterElems (pyDictGet kvs "data") with
          | some elems => scanEntries dataset_type elems
          | Option.none => Except.error MetaError.typeError
    | _ => Except.error MetaError.attrError

/-- Whether a resolver result is the spec's `ShapeError`. -/
def isShapeErr : Except MetaError PyVal → Bool
  | Except.error (MetaError.shapeError _) => true
  | _ => false

/-- The command-line arguments of `main` after `argparse` (`--output`,
`--also-plain`, `--timeout`, `--limit`).  Timeouts are Python floats,
modelled as rationals (exact for every value `argparse` produces here). -/
structure CliArgs where
  output : String
  also_plain : Option String
  timeout : Rat
  limit : Option Int

/-- The calls `main` makes, as observable parameters: the dataset type and
timeout passed to `get_bulk_meta`, and the paths, timeout and limit
passed to `stream_bulk_json_array_to_ndjson`. -/
structure MainTrace where
  metaDatasetType : String
  metaTimeout : Rat
  downloadTimeout : Rat
  out_paths : List String
  downloadLimit : Option Int

/-- The entry point `main` from the source, as a trace of the two calls it issues:
`get_bulk_meta("oracle_cards", timeout=min(60.0, args.timeout))`, then
the transcoder with `args.timeout` and `args.limit` on `[args.output]`
plus `args.also_plain` when that flag is truthy (non-`None` and
non-empty). -/
def mainRun (args : CliArgs) : MainTrace :=
  { metaDatasetType := "oracle_cards"
    metaTimeout := min 60 args.timeout
    downloadTimeout := args.timeout
    out_paths := args.output ::
      (match args.also_plain with
       | some p => if p.isEmpty then [] else [p]
       | Option.none => [])
    downloadLimit := args.limit }

mutual

/-- A value built only from JSON-native Python types (plus `Decimal`,
which `_json_default` handles): exactly the values on which `json.dumps`
cannot raise `TypeError`. -/
def jsonNative : PyVal → Bool
  | PyVal.none => true
  | PyVal.bool _ => true
  | PyVal.int _ => true
  | PyVal.dec _ _ => true
  | PyVal.str _ => true
  | PyVal.list elts => jsonNativeElems elts
  | PyVal.dict kvs => jsonNativeKvs kvs
  | PyVal.foreign _ => false

/-- All elements of a list are JSON-native. -/
def jsonNativeElems : List PyVal → Bool
  | [] => true
  | v :: rest => jsonNative v && jsonNativeElems rest

/-- All values of an object are JSON-native. -/
def jsonNativeKvs : List (String × PyVal) → Bool
  | [] => true
  | kv :: rest => jsonNative kv.2 && jsonNativeKvs rest

end

/-! ## Helper lemmas -/

/-- Python `str.lower()` distributes over concatenation. -/
theorem pyLower_append (a b : String) : pyLower (a ++ b) = pyLower a ++ pyLower b := by
  simp only [pyLower, String.data_append, List.map_append]
  rfl

/-- A string ends with any string appended to its right. -/
theorem pyEndsWith_append_right (a b : String) : pyEndsWith (a ++ b) b = true := by
  simp [pyEndsWith, String.data_append, List.isSuffixOf_iff_suffix]

/-! ## Claim theorems (first batch) -/

/-- C2: on every exit path of `stream_bulk_json_array_to_ndjson` — normal
completion, early termination via the limit, and any exception raised
during parsing or writing (parse errors and serialization failures in the
loop) — every sink that was opened is closed before the operation returns
or propagates the error. -/
theorem spec_c2_all_sinks_closed (httpOk : Bool) (events : List StreamEvent)
    (out_paths : List String) (limit : Option Int) :
    ((stream_bulk_json_array_to_ndjson httpOk events out_paths limit).writers.all
      (fun w => w.closed)) = true := by
  unfold stream_bulk_json_array_to_ndjson
  split
  · rfl
  · split
    · rfl
    · simp [List.all_eq_true, List.mem_map]

/-- C5: calling `stream_bulk_json_array_to_ndjson` with an empty sink list
fails with the `ConfigError` (`ValueError`), issues no HTTP request, and
opens no sink. -/
theorem spec_c5_empty_sinks_config_error (httpOk : Bool) (events : List StreamEvent)
    (limit : Option Int) :
    stream_bulk_json_array_to_ndjson httpOk events [] limit =
      { result := Except.error TranscodeErr.configError
        writers := []
        httpRequested := false
        consumed := 0 } := rfl

/-- C8: re-running the transcoder with the same input stream and the same
sink paths leaves the filesystem exactly as a single run does: each sink
is opened in overwrite (truncate) mode, so no lines from the previous run
accumulate. -/
theorem spec_c8_rerun_overwrites (fs : String → String) (httpOk : Bool)
    (events : List StreamEvent) (out_paths : List String) (limit : Option Int) :
    (runTranscodeFS ((runTranscodeFS fs httpOk events out_paths limit).1)
        httpOk events out_paths limit).1 =
      (runTranscodeFS fs httpOk events out_paths limit).1 := by
  funext p
  simp only [runTranscodeFS]
  cases h : (stream_bulk_json_array_to_ndjson httpOk events out_paths limit).writers.find?
      (fun w => w.path == p) with
  | none => simp [h]
  | some w => simp [h]

/-- C9: for every `--timeout` value `t`, `main` invokes the metadata
resolver with timeout `min(60, t)` — hence always at most 60 — while the
transcoder receives the full `t`. -/
theorem spec_c9_meta_timeout_capped (args : CliArgs) :
    (mainRun args).metaTimeout = min 60 args.timeout ∧
    (mainRun args).metaTimeout ≤ 60 ∧
    (mainRun args).downloadTimeout = args.timeout :=
  ⟨rfl, min_le_left 60 args.timeout, rfl⟩

/-- Any path whose final characters lower to `.gz` is opened as a gzip
sink, whatever comes before them. -/
theorem open_writer_gz_of_lower {sfx : String} (h : pyLower sfx = ".gz") (stem : String) :
    (_open_writer (stem ++ sfx)).kind = WriterKind.gzipText := by
  simp only [_open_writer]
  rw [pyLower_append, h, pyEndsWith_append_right]
  rfl

/-- C10: the gzip-vs-plain choice of `_open_writer` is a case-insensitive
test of the `.gz` suffix: for every stem, paths ending in `.gz`, `.GZ`,
`.Gz` or `.gZ` are all opened as gzip sinks, while a path with no such
suffix (e.g. `cards.ndjson`) is opened as a plain-text sink. -/
theorem spec_c10_gz_suffix_case_insensitive :
    (∀ stem : String,
      (_open_writer (stem ++ ".gz")).kind = WriterKind.gzipText ∧
      (_open_writer (stem ++ ".GZ")).kind = WriterKind.gzipText ∧
      (_open_writer (stem ++ ".Gz")).kind = WriterKind.gzipText ∧
      (_open_writer (stem ++ ".gZ")).kind = WriterKind.gzipText) ∧
    (_open_writer "cards.ndjson").kind = WriterKind.plainText :=
  ⟨fun stem =>
    ⟨open_writer_gz_of_lower (by decide) stem, open_writer_gz_of_lower (by decide) stem,
     open_writer_gz_of_lower (by decide) stem, open_writer_gz_of_lower (by decide) stem⟩,
   by decide⟩

/-- With no limit, the loop consumes the whole stream, appends one line
per element to every writer, and returns the incremented count. -/
theorem runLoop_no_limit (arr : List PyVal) :
    ∀ (ws : List SinkWriter) (count : Int) (consumed : Nat),
    (∀ v ∈ arr, (dumps v).isSome = true) →
    runLoop Option.none (arr.map StreamEvent.item) ws count consumed =
      (Except.ok (count + arr.length),
       ws.map (fun w => { w with lines := w.lines ++ arr.map lineOf }),
       consumed + arr.length) := by
  induction arr with
  | nil => intro ws count consumed _; simp [runLoop]
  | cons v rest ih =>
      intro ws count consumed h
      obtain ⟨s, hs⟩ := Option.isSome_iff_exists.mp (h v (List.mem_cons_self v rest))
      have hrest : ∀ u ∈ rest, (dumps u).isSome = true :=
        fun u hu => h u (List.mem_cons_of_mem v hu)
      simp only [List.map_cons, runLoop, hs]
      rw [show shouldBreak Option.none (count + 1) = false from rfl]
      simp only [Bool.false_eq_true, if_false]
      rw [ih _ (count + 1) (consumed + 1) hrest]
      simp only [Prod.mk.injEq]
      refine ⟨?_, ?_, ?_⟩
      · simp only [List.length_cons]
        push_cast
        ring
      · simp only [List.map_map]
        apply List.map_congr_left
        intro w _
        simp [Function.comp, List.append_assoc, lineOf, hs]
      · simp only [List.length_cons]
        omega

/-- C1: for every non-empty array of JSON objects supplied as the streamed
response body (with no limit), `stream_bulk_json_array_to_ndjson` writes
exactly `len(array)` lines to every sink, where the i-th line is the
compact single-line JSON serialization of the i-th array element
(non-ASCII preserved, decimals normalized to float by `_json_default`)
followed by a newline, and returns that count. -/
theorem spec_c1_transcode_writes_all_lines (arr : List PyVal) (out_paths : List String)
    (hne : arr ≠ []) (hpaths : out_paths ≠ [])
    (hser : ∀ v ∈ arr, (dumps v).isSome = true) :
    stream_bulk_json_array_to_ndjson true (arr.map StreamEvent.item) out_paths Option.none =
      { result := Except.ok (arr.length : Int)
        writers := out_paths.map (fun p =>
          { path := p
            kind := (_open_writer p).kind
            lines := arr.map lineOf
            closed := true })
        httpRequested := true
        consumed := arr.length } := by
  unfold stream_bulk_json_array_to_ndjson
  rw [if_neg (by simpa [List.isEmpty_iff] using hpaths)]
  rw [if_neg (by simp)]
  rw [runLoop_no_limit arr _ 0 0 hser]
  simp [List.map_map, Function.comp, _open_writer]

/-- Witness for C1: the spec's two-record scenario written to one gzip
sink, producing the two expected lines and the count 2. -/
theorem spec_c1_witness :
    (([PyVal.dict [("id", PyVal.int 1)], PyVal.dict [("id", PyVal.int 2)]] : List PyVal) ≠ [] ∧
     (["cards.ndjson.gz"] : List String) ≠ [] ∧
     ∀ v ∈ ([PyVal.dict [("id", PyVal.int 1)], PyVal.dict [("id", PyVal.int 2)]] : List PyVal),
       (dumps v).isSome = true) ∧
    stream_bulk_json_array_to_ndjson true
        ([PyVal.dict [("id", PyVal.int 1)], PyVal.dict [("id", PyVal.int 2)]].map StreamEvent.item)
        ["cards.ndjson.gz"] Option.none =
      { result := Except.ok (([PyVal.dict [("id", PyVal.int 1)],
                              PyVal.dict [("id", PyVal.int 2)]] : List PyVal).length : Int)
        writers := ["cards.ndjson.gz"].map (fun p =>
          { path := p
            kind := (_open_writer p).kind
            lines := [PyVal.dict [("id", PyVal.int 1)], PyVal.dict [("id", PyVal.int 2)]].map lineOf
            closed := true })
        httpRequested := true
        consumed := ([PyVal.dict [("id", PyVal.int 1)],
                      PyVal.dict [("id", PyVal.int 2)]] : List PyVal).length } :=
  ⟨⟨by simp, by simp, by decide⟩,
   spec_c1_transcode_writes_all_lines _ _ (by simp) (by simp) (by decide)⟩

/-- With an active positive limit `k` reachable within the stream, the
loop stops after writing exactly the lines of the first `n = k - count`
elements, returns `k`, and consumes only those `n` events. -/
theorem runLoop_reaches_limit (k : Int) :
    ∀ (n : Nat) (arr : List PyVal) (ws : List SinkWriter) (count : Int) (consumed : Nat),
    (∀ v ∈ arr, (dumps v).isSome = true) →
    0 < k → 0 < n → n ≤ arr.length → count + n = k →
    runLoop (some k) (arr.map StreamEvent.item) ws count consumed =
      (Except.ok k,
       ws.map (fun w => { w with lines := w.lines ++ (arr.take n).map lineOf }),
       consumed + n) := by
  intro n
  induction n with
  | zero => intro arr ws count consumed _ _ hn; omega
  | succ m ih =>
      intro arr ws count consumed h hk _ hlen hsum
      match arr with
      | [] => simp at hlen
      | v :: rest =>
          obtain ⟨s, hs⟩ := Option.isSome_iff_exists.mp (h v (List.mem_cons_self v rest))
          have hrest : ∀ u ∈ rest, (dumps u).isSome = true :=
            fun u hu => h u (List.mem_cons_of_mem v hu)
          simp only [List.map_cons, runLoop, hs]
          match m, ih with
          | 0, _ =>
              have hbreak : shouldBreak (some k) (count + 1) = true := by
                simp only [shouldBreak, Bool.and_eq_true, bne_iff_ne, ne_eq,
                  decide_eq_true_eq]
                push_cast at hsum
                omega
              rw [hbreak]
              simp only [if_true, List.take_succ_cons, List.take_zero, List.map_cons,
                List.map_nil, Prod.mk.injEq]
              refine ⟨?_, ?_, by trivial⟩
              · have : count + 1 = k := by push_cast at hsum; omega
                rw [this]
              · apply List.map_congr_left
                intro w _
                simp [lineOf, hs]
          | Nat.succ m', ih =>
              have hle : ¬ (k ≤ count + 1) := by
                push_cast at hsum
                omega
              have hnobreak : shouldBreak (some k) (count + 1) = false := by
                simp [shouldBreak, hle]
              rw [hnobreak]
              simp only [Bool.false_eq_true, if_false]
              rw [ih rest _ (count + 1) (consumed + 1) hrest hk (Nat.succ_pos m')
                (by simpa using hlen) (by push_cast at hsum ⊢; omega)]
              simp only [Prod.mk.injEq, List.map_map, List.take_succ_cons, List.map_cons]
              refine ⟨by trivial, ?_, by omega⟩
              apply List.map_congr_left
              intro w _
              simp [Function.comp, List.append_assoc, lineOf, hs]

/-- C3 (amended): for every *positive* integer limit `k < len(array)`,
exactly `k` lines are written to each sink (the serializations of the
first `k` array elements), the loop stops reading further array elements
(only `k` of the stream events are consumed), and the call returns `k`.
The claim's quantification over every integer fails at `k = 0`, which
Python's `if limit and count >= limit` treats as "no limit". -/
theorem spec_c3_amended_positive_limit (arr : List PyVal) (out_paths : List String) (k : Int)
    (hk : 1 ≤ k) (hlt : k < (arr.length : Int))
    (hser : ∀ v ∈ arr, (dumps v).isSome = true) (hpaths : out_paths ≠ []) :
    stream_bulk_json_array_to_ndjson true (arr.map StreamEvent.item) out_paths (some k) =
      { result := Except.ok k
        writers := out_paths.map (fun p =>
          { path := p
            kind := (_open_writer p).kind
            lines := (arr.take k.toNat).map lineOf
            closed := true })
        httpRequested := true
        consumed := k.toNat } ∧
    ((arr.take k.toNat).map lineOf).length = k.toNat ∧
    k.toNat < arr.length := by
  have hkn : (k.toNat : Int) = k := Int.toNat_of_nonneg (by omega)
  have hlen : k.toNat < arr.length := by omega
  refine ⟨?_, ?_, hlen⟩
  · unfold stream_bulk_json_array_to_ndjson
    rw [if_neg (by simpa [List.isEmpty_iff] using hpaths)]
    rw [if_neg (by simp)]
    rw [runLoop_reaches_limit k k.toNat arr _ 0 0 hser (by omega) (by omega)
      (le_of_lt hlen) (by omega)]
    simp [List.map_map, Function.comp, _open_writer]
  · simp [List.length_take, min_eq_left (le_of_lt hlen)]

/-- Counterexample to C3 as stated: with a one-element array and
`limit = 0` (an integer `k` with `k < len(array)`), the code writes one
line, consumes the whole stream and returns 1, not the zero lines the
claim demands — Python's `if limit and count >= limit` is never taken for
a falsy `limit`. -/
theorem spec_c3_counterexample :
    (0 : Int) < (([PyVal.dict []] : List PyVal).length : Int) ∧
    stream_bulk_json_array_to_ndjson true ([PyVal.dict []].map StreamEvent.item)
        ["cards.ndjson"] (some 0) =
      { result := Except.ok 1
        writers := [{ path := "cards.ndjson"
                      kind := WriterKind.plainText
                      lines := ["\x7b\x7d\n"]
                      closed := true }]
        httpRequested := true
        consumed := 1 } :=
  ⟨by decide, rfl⟩

/-- Witness for the amended C3: a three-element array with `limit = 2`
writes exactly the first two lines, returns 2, and consumes only two of
the three stream events. -/
theorem spec_c3_witness :
    ((1 : Int) ≤ 2 ∧
     (2 : Int) < (([PyVal.dict [("id", PyVal.int 1)], PyVal.dict [("id", PyVal.int 2)],
                    PyVal.dict [("id", PyVal.int 3)]] : List PyVal).length : Int) ∧
     (∀ v ∈ ([PyVal.dict [("id", PyVal.int 1)], PyVal.dict [("id", PyVal.int 2)],
              PyVal.dict [("id", PyVal.int 3)]] : List PyVal), (dumps v).isSome = true) ∧
     (["out.ndjson"] : List String) ≠ []) ∧
    (stream_bulk_json_array_to_ndjson true
        ([PyVal.dict [("id", PyVal.int 1)], PyVal.dict [("id", PyVal.int 2)],
          PyVal.dict [("id", PyVal.int 3)]].map StreamEvent.item)
        ["out.ndjson"] (some 2) =
      { result := Except.ok 2
        writers := ["out.ndjson"].map (fun p =>
          { path := p
            kind := (_open_writer p).kind
            lines := ([PyVal.dict [("id", PyVal.int 1)], PyVal.dict [("id", PyVal.int 2)],
                       PyVal.dict [("id", PyVal.int 3)]].take (Int.toNat 2)).map lineOf
            closed := true })
        httpRequested := true
        consumed := Int.toNat 2 } ∧
     (([PyVal.dict [("id", PyVal.int 1)], PyVal.dict [("id", PyVal.int 2)],
        PyVal.dict [("id", PyVal.int 3)]].take (Int.toNat 2)).map lineOf).length = Int.toNat 2 ∧
     Int.toNat 2 < ([PyVal.dict [("id", PyVal.int 1)], PyVal.dict [("id", PyVal.int 2)],
                     PyVal.dict [("id", PyVal.int 3)]] : List PyVal).length) :=
  ⟨⟨by decide, by decide, by decide, by simp⟩,
   spec_c3_amended_positive_limit _ _ 2 (by decide) (by decide) (by decide) (by simp)⟩

/-- If every element of a list serializes, the list of serialized
elements exists. -/
theorem dumpsElems_isSome (elts : List PyVal)
    (h : ∀ e ∈ elts, (dumps e).isSome = true) : (dumpsElems elts).isSome = true := by
  induction elts with
  | nil => rfl
  | cons v rest ih =>
      obtain ⟨s, hs⟩ := Option.isSome_iff_exists.mp (h v (List.mem_cons_self v rest))
      obtain ⟨ss, hss⟩ := Option.isSome_iff_exists.mp
        (ih fun e he => h e (List.mem_cons_of_mem v he))
      simp [dumpsElems, hs, hss]

/-- If every value of an object serializes, the list of serialized
members exists. -/
theorem dumpsKvs_isSome (kvs : List (String × PyVal))
    (h : ∀ kv ∈ kvs, (dumps kv.2).isSome = true) : (dumpsKvs kvs).isSome = true := by
  induction kvs with
  | nil => rfl
  | cons kv rest ih =>
      obtain ⟨s, hs⟩ := Option.isSome_iff_exists.mp (h kv (List.mem_cons_self kv rest))
      obtain ⟨ss, hss⟩ := Option.isSome_iff_exists.mp
        (ih fun e he => h e (List.mem_cons_of_mem kv he))
      simp [dumpsKvs, hs, hss]

/-- A native list has native elements. -/
theorem jsonNativeElems_mem (elts : List PyVal) (h : jsonNativeElems elts = true) :
    ∀ e ∈ elts, jsonNative e = true := by
  induction elts with
  | nil => intro e he; simp at he
  | cons v rest ih =>
      simp only [jsonNativeElems, Bool.and_eq_true] at h
      intro e he
      rcases List.mem_cons.mp he with rfl | hmem
      · exact h.1
      · exact ih h.2 e hmem

/-- A native object has native values. -/
theorem jsonNativeKvs_mem (kvs : List (String × PyVal)) (h : jsonNativeKvs kvs = true) :
    ∀ kv ∈ kvs, jsonNative kv.2 = true := by
  induction kvs with
  | nil => intro kv hkv; simp at hkv
  | cons x rest ih =>
      simp only [jsonNativeKvs, Bool.and_eq_true] at h
      intro kv hkv
      rcases List.mem_cons.mp hkv with rfl | hmem
      · exact h.1
      · exact ih h.2 kv hmem

/-- Serialization succeeds on every JSON-native value: the `_json_default`
fallback turns decimals into floats instead of letting serialization
fail.  (Strong induction on the size of the nested value.) -/
theorem dumps_isSome_of_native : ∀ v : PyVal, jsonNative v = true → (dumps v).isSome = true := by
  have key : ∀ (n : Nat) (v : PyVal), sizeOf v ≤ n → jsonNative v = true →
      (dumps v).isSome = true := by
    intro n
    induction n with
    | zero =>
        intro v hv _
        exfalso
        cases v <;> simp_arith at hv
    | succ n ih =>
        intro v hv hn
        cases v with
        | none => rfl
        | bool b => cases b <;> rfl
        | int k => rfl
        | dec m s => rfl
        | str s => rfl
        | foreign t => simp [jsonNative] at hn
        | list elts =>
            have hsz : sizeOf elts ≤ n := by
              have := PyVal.list.sizeOf_spec elts
              omega
            have helts : (dumpsElems elts).isSome = true := by
              apply dumpsElems_isSome
              intro e he
              have hlt : sizeOf e < sizeOf elts := List.sizeOf_lt_of_mem he
              exact ih e (by omega) (jsonNativeElems_mem elts hn e he)
            obtain ⟨parts, hp⟩ := Option.isSome_iff_exists.mp helts
            simp [dumps, hp]
        | dict kvs =>
            have hsz : sizeOf kvs ≤ n := by
              have := PyVal.dict.sizeOf_spec kvs
              omega
            have hkvs : (dumpsKvs kvs).isSome = true := by
              apply dumpsKvs_isSome
              intro kv hkv
              have hlt : sizeOf kv < sizeOf kvs := List.sizeOf_lt_of_mem hkv
              have hlt2 : sizeOf kv.2 < sizeOf kv := by
                obtain ⟨a, b⟩ := kv
                simp_arith
              exact ih kv.2 (by omega) (jsonNativeKvs_mem kvs hn kv hkv)
            obtain ⟨parts, hp⟩ := Option.isSome_iff_exists.mp hkvs
            simp [dumps, hp]
  exact fun v => key (sizeOf v) v (le_refl _)

/-- C6: decimal/fixed-point numeric values serialize as ordinary JSON
number literals instead of raising a `SerializationError`: every
JSON-native record (decimals included) serializes successfully, the
`_json_default` hook renders `Decimal("12.50")` as the numeric literal
`12.5`, and the spec's scenario record produces a numeric (unquoted)
member, not a string. -/
theorem spec_c6_decimal_to_float :
    (∀ v : PyVal, jsonNative v = true → (dumps v).isSome = true) ∧
    _json_default (PyVal.dec 1250 2) = some "12.5" ∧
    dumps (PyVal.dict [("price", PyVal.dec 1250 2)]) = some "\x7b\"price\": 12.5\x7d" :=
  ⟨dumps_isSome_of_native, by decide, by decide⟩

/-- Witness for C6: the scenario record `[{"price": Decimal("12.50")}]`
is JSON-native, and serialization of it succeeds. -/
theorem spec_c6_witness :
    jsonNative (PyVal.dict [("price", PyVal.dec 1250 2)]) = true ∧
    (dumps (PyVal.dict [("price", PyVal.dec 1250 2)])).isSome = true :=
  ⟨by decide, spec_c6_decimal_to_float.1 _ (by decide)⟩

/-- The scan of `get_bulk_meta` in terms of `List.find?`: the first
entry passing the `isinstance`/`type` filter decides the result — returned
if its `download_uri` is truthy, a missing-uri error otherwise — and an
exhausted scan is the not-found error. -/
theorem scanEntries_eq (dtype : String) (elems : List PyVal) :
    scanEntries dtype elems =
      (match elems.find? (entryMatches dtype) with
       | some e =>
           if pyTruthy (entryUri e) then Except.ok e
           else Except.error (MetaError.shapeError (dtype ++ " entry missing download_uri"))
       | Option.none => Except.error (MetaError.notFoundError
           ("No '" ++ dtype ++ "' entry found in bulk-data index"))) := by
  induction elems with
  | nil => rfl
  | cons e rest ih =>
      cases e
      case dict kvs =>
        cases hm : pyEqStr (pyDictGet kvs "type") dtype with
        | true =>
            rw [List.find?_cons_of_pos _ (by simp [entryMatches, hm])]
            simp only [scanEntries, hm, if_true, entryUri]
            by_cases ht : pyTruthy (pyDictGet kvs "download_uri") = true <;> simp [ht]
        | false =>
            rw [List.find?_cons_of_neg _ (by simp [entryMatches, hm])]
            simpa [scanEntries, hm] using ih
      all_goals
        rw [List.find?_cons_of_neg _ (by simp [entryMatches])]
        simpa [scanEntries] using ih

/-- C4: for every well-shaped index payload (an object with the `"list"`
marker whose `data` field is a list, each matching entry carrying a
non-empty `download_uri`), `get_bulk_meta` returns the first entry of
`data` whose `type` equals the requested dataset type — in particular
that entry's `download_uri` — when one exists, and fails with the
`NotFoundError` when no entry matches. -/
theorem spec_c4_resolver_first_match (kvs : List (String × PyVal)) (entries : List PyVal)
    (dtype : String)
    (hmk : pyEqStr (pyDictGet kvs "object") "list" = true)
    (hkey : hasKey kvs "data" = true)
    (hdata : pyDictGet kvs "data" = PyVal.list entries) :
    (∀ e, entries.find? (entryMatches dtype) = some e →
        pyTruthy (entryUri e) = true →
        get_bulk_meta true (PyVal.dict kvs) dtype = Except.ok e) ∧
    (entries.find? (entryMatches dtype) = Option.none →
        get_bulk_meta true (PyVal.dict kvs) dtype =
          Except.error (MetaError.notFoundError
            ("No '" ++ dtype ++ "' entry found in bulk-data index"))) := by
  have hbm : get_bulk_meta true (PyVal.dict kvs) dtype = scanEntries dtype entries := by
    simp [get_bulk_meta, hmk, hkey, hdata, iterElems]
  constructor
  · intro e hfind htr
    rw [hbm, scanEntries_eq, hfind]
    simp [htr]
  · intro hfind
    rw [hbm, scanEntries_eq, hfind]

/-- Witness for C4: the spec's scenario index payload — one
`default_cards` entry with a non-empty `download_uri` — resolves to
exactly that entry. -/
theorem spec_c4_witness :
    (pyEqStr (pyDictGet [("object", PyVal.str "list"),
        ("data", PyVal.list [PyVal.dict [("type", PyVal.str "default_cards"),
          ("download_uri", PyVal.str "http://x/d.json"),
          ("updated_at", PyVal.str "2024-01-01"), ("size", PyVal.int 10),
          ("content_encoding", PyVal.str "gzip")]])] "object") "list" = true ∧
     hasKey [("object", PyVal.str "list"),
        ("data", PyVal.list [PyVal.dict [("type", PyVal.str "default_cards"),
          ("download_uri", PyVal.str "http://x/d.json"),
          ("updated_at", PyVal.str "2024-01-01"), ("size", PyVal.int 10),
          ("content_encoding", PyVal.str "gzip")]])] "data" = true ∧
     [PyVal.dict [("type", PyVal.str "default_cards"),
          ("download_uri", PyVal.str "http://x/d.json"),
          ("updated_at", PyVal.str "2024-01-01"), ("size", PyVal.int 10),
          ("content_encoding", PyVal.str "gzip")]].find? (entryMatches "default_cards") =
       some (PyVal.dict [("type", PyVal.str "default_cards"),
          ("download_uri", PyVal.str "http://x/d.json"),
          ("updated_at", PyVal.str "2024-01-01"), ("size", PyVal.int 10),
          ("content_encoding", PyVal.str "gzip")]) ∧
     pyTruthy (entryUri (PyVal.dict [("type", PyVal.str "default_cards"),
          ("download_uri", PyVal.str "http://x/d.json"),
          ("updated_at", PyVal.str "2024-01-01"), ("size", PyVal.int 10),
          ("content_encoding", PyVal.str "gzip")])) = true) ∧
    get_bulk_meta true (PyVal.dict [("object", PyVal.str "list"),
        ("data", PyVal.list [PyVal.dict [("type", PyVal.str "default_cards"),
          ("download_uri", PyVal.str "http://x/d.json"),
          ("updated_at", PyVal.str "2024-01-01"), ("size", PyVal.int 10),
          ("content_encoding", PyVal.str "gzip")]])]) "default_cards" =
      Except.ok (PyVal.dict [("type", PyVal.str "default_cards"),
          ("download_uri", PyVal.str "http://x/d.json"),
          ("updated_at", PyVal.str "2024-01-01"), ("size", PyVal.int 10),
          ("content_encoding", PyVal.str "gzip")]) :=
  ⟨⟨by decide, by decide, rfl, by decide⟩,
   (spec_c4_resolver_first_match
      [("object", PyVal.str "list"),
       ("data", PyVal.list [PyVal.dict [("type", PyVal.str "default_cards"),
         ("download_uri", PyVal.str "http://x/d.json"),
         ("updated_at", PyVal.str "2024-01-01"), ("size", PyVal.int 10),
         ("content_encoding", PyVal.str "gzip")]])]
      [PyVal.dict [("type", PyVal.str "default_cards"),
         ("download_uri", PyVal.str "http://x/d.json"),
         ("updated_at", PyVal.str "2024-01-01"), ("size", PyVal.int 10),
         ("content_encoding", PyVal.str "gzip")]]
      "default_cards" (by decide) (by decide) rfl).1 _ rfl (by decide)⟩

/-- C7 (amended): after a successful index request, `get_bulk_meta` fails
with `ShapeError` exactly when the parsed payload is an *object* (dict)
that lacks the `"list"` marker or the `data` field, or when the first
matching entry of the iterated `data` lacks a non-empty `download_uri`.
The claim's "not an object" direction fails: a non-object payload makes
`payload.get` raise `AttributeError`, not the shape `RuntimeError`. -/
theorem spec_c7_amended_shape_error_iff (payload : PyVal) (dtype : String) :
    isShapeErr (get_bulk_meta true payload dtype) = true ↔
      (∃ kvs, payload = PyVal.dict kvs ∧
        ((pyEqStr (pyDictGet kvs "object") "list" = false ∨ hasKey kvs "data" = false) ∨
          ∃ elems e,
            iterElems (pyDictGet kvs "data") = some elems ∧
            elems.find? (entryMatches dtype) = some e ∧
            pyTruthy (entryUri e) = false)) := by
  cases payload
  case dict kvs =>
    have key : get_bulk_meta true (PyVal.dict kvs) dtype =
        (if !pyEqStr (pyDictGet kvs "object") "list" || !hasKey kvs "data" then
           Except.error (MetaError.shapeError "Unexpected bulk-data payload shape")
         else
           match iterElems (pyDictGet kvs "data") with
           | some elems => scanEntries dtype elems
           | Option.none => Except.error MetaError.typeError) := rfl
    rw [key]
    cases hb : (!pyEqStr (pyDictGet kvs "object") "list" || !hasKey kvs "data") with
    | true =>
        have hd : pyEqStr (pyDictGet kvs "object") "list" = false ∨
            hasKey kvs "data" = false := by
          rcases Bool.or_eq_true_iff.mp hb with h | h
          · exact Or.inl (Bool.not_eq_true' .. |>.mp h)
          · exact Or.inr (Bool.not_eq_true' .. |>.mp h)
        simp only [if_true, isShapeErr, true_iff]
        exact ⟨kvs, rfl, Or.inl hd⟩
    | false =>
        have h1 : pyEqStr (pyDictGet kvs "object") "list" = true := by
          rcases Bool.or_eq_false_iff.mp hb with ⟨ha, _⟩
          simpa using ha
        have h2 : hasKey kvs "data" = true := by
          rcases Bool.or_eq_false_iff.mp hb with ⟨_, ha⟩
          simpa using ha
        simp only [Bool.false_eq_true, if_false]
        have noshape :
            (∃ kvs', PyVal.dict kvs = PyVal.dict kvs' ∧
              ((pyEqStr (pyDictGet kvs' "object") "list" = false ∨
                hasKey kvs' "data" = false) ∨
                ∃ elems e, iterElems (pyDictGet kvs' "data") = some elems ∧
                  elems.find? (entryMatches dtype) = some e ∧
                  pyTruthy (entryUri e) = false)) ↔
            (∃ elems e, iterElems (pyDictGet kvs "data") = some elems ∧
                elems.find? (entryMatches dtype) = some e ∧
                pyTruthy (entryUri e) = false) := by
          constructor
          · rintro ⟨kvs', hk, (h | h) | hp⟩
            · cases hk; rw [h1] at h; cases h
            · cases hk; rw [h2] at h; cases h
            · cases hk; exact hp
          · intro hp
            exact ⟨kvs, rfl, Or.inr hp⟩
        rw [noshape]
        cases hit : iterElems (pyDictGet kvs "data") with
        | none =>
            simp only [isShapeErr]
            constructor
            · intro h
              cases h
            · rintro ⟨elems, e, hiter, -, -⟩
              cases hiter
        | some elems =>
            rw [show (match (some elems : Option (List PyVal)) with
                  | some elems => scanEntries dtype elems
                  | Option.none => Except.error MetaError.typeError) =
                scanEntries dtype elems from rfl]
            rw [scanEntries_eq]
            cases hfind : elems.find? (entryMatches dtype) with
            | none =>
                simp only [isShapeErr]
                constructor
                · intro h
                  cases h
                · rintro ⟨elems', e, hiter, hf, -⟩
                  cases hiter
                  rw [hfind] at hf
                  cases hf
            | some e =>
                rw [show (match (some e : Option PyVal) with
                      | some e =>
                          if pyTruthy (entryUri e) = true then Except.ok e
                          else Except.error (MetaError.shapeError
                            (dtype ++ " entry missing download_uri"))
                      | Option.none => Except.error (MetaError.notFoundError
                          ("No '" ++ dtype ++ "' entry found in bulk-data index"))) =
                    (if pyTruthy (entryUri e) = true then Except.ok e
                     else Except.error (MetaError.shapeError
                       (dtype ++ " entry missing download_uri"))) from rfl]
                by_cases ht : pyTruthy (entryUri e) = true
                · rw [if_pos ht]
                  simp only [isShapeErr]
                  constructor
                  · intro h
                    cases h
                  · rintro ⟨elems', e', hiter, hf, htr⟩
                    cases hiter
                    rw [hfind] at hf
                    cases hf
                    rw [ht] at htr
                    cases htr
                · rw [if_neg ht]
                  simp only [isShapeErr, true_iff]
                  exact ⟨elems, e, rfl, hfind, Bool.not_eq_true _ ▸ ht⟩
  all_goals
    simp [get_bulk_meta, isShapeErr]

/-- Counterexample to C7 as stated: the parsed payload `[]` (a JSON
array, hence not an object carrying the marker) makes the resolver fail
with the `AttributeError` of `payload.get`, not with `ShapeError`. -/
theorem spec_c7_counterexample :
    get_bulk_meta true (PyVal.list []) "oracle_cards" = Except.error MetaError.attrError ∧
    isShapeErr (get_bulk_meta true (PyVal.list []) "oracle_cards") = false :=
  ⟨rfl, by decide⟩
